import Mathlib

/-!
Verification development for the quiz match server (Go sources under
`internal/` and `pkg/`).  Go code is shallowly embedded: `time.Duration`
values and machine integers become `Int` (nanosecond counts are irrelevant
to the properties, only ratios and signs matter); Go `float64` arithmetic
is modelled by exact rationals `ℚ`; the Go conversion `int(x)` (truncation
toward zero) is modelled by `goTrunc`; fallible operations return `Except`.
-/

namespace Quiz

/-- Go `int(x)` on a `float64`: truncation toward zero. -/
def goTrunc (x : ℚ) : ℤ := if 0 ≤ x then ⌊x⌋ else ⌈x⌉

/-- Go `scoring.ScoringConfig` (engine.go): configurable scoring constants. -/
structure ScoringConfig where
  baseScore : ℤ
  maxTimeBonus : ℤ
  streakBonusPercent : ℚ
  maxStreakBonus : ℚ
  deriving Repr, DecidableEq

/-- Go `scoring.DefaultScoringConfig` (engine.go): production defaults. -/
def DefaultScoringConfig : ScoringConfig :=
  { baseScore := 100
    maxTimeBonus := 50
    streakBonusPercent := 1/20
    maxStreakBonus := 1/2 }

/-- Go `Engine.CalculateScore` (engine.go:40-76).  Points for a single answer:
incorrect answers score 0; otherwise base, plus a time bonus linearly
decaying with the clamped ratio `timeRemaining/perQuestionTimeout`
(only when the timeout is positive), plus a streak bonus that is a capped
percentage of base (only when `currentStreak > 0`). -/
def calculateScore (cfg : ScoringConfig) (isCorrect : Bool)
    (timeRemaining perQuestionTimeout : ℤ) (currentStreak : ℤ) : ℤ :=
  if !isCorrect then 0
  else
    let score := cfg.baseScore
    let score :=
      if perQuestionTimeout > 0 then
        let timeRatio : ℚ := (timeRemaining : ℚ) / (perQuestionTimeout : ℚ)
        let timeRatio := if timeRatio > 1 then 1 else timeRatio
        let timeRatio := if timeRatio < 0 then 0 else timeRatio
        score + goTrunc ((cfg.maxTimeBonus : ℚ) * timeRatio)
      else score
    if currentStreak > 0 then
      let streakMultiplier := (currentStreak : ℚ) * cfg.streakBonusPercent
      let streakMultiplier :=
        if streakMultiplier > cfg.maxStreakBonus then cfg.maxStreakBonus
        else streakMultiplier
      score + goTrunc ((cfg.baseScore : ℚ) * streakMultiplier)
    else score

/-- The spec's per-answer formula, written from the spec's words
(`base + floor(max_time_bonus · time_ratio) + floor(base · min(streak ·
streak_bonus_per_correct, streak_bonus_cap))` with `time_ratio` the clamped
ratio), used to compare against `calculateScore`. -/
def specAnswerScore (timeRemaining perQuestionTimeout : ℤ) (streak : ℕ) : ℤ :=
  let timeRatio : ℚ :=
    max 0 (min 1 ((timeRemaining : ℚ) / (perQuestionTimeout : ℚ)))
  100 + ⌊(50 : ℚ) * timeRatio⌋ +
    ⌊(100 : ℚ) * min ((streak : ℚ) * (1/20)) (1/2)⌋

/-- Go `scoring.AnswerRecord` / `match.AnswerRecord` (engine.go, types.go):
one answer in a player's log.  `submittedAt` is an absolute instant. -/
structure AnswerRecord where
  questionOrder : ℤ
  questionToken : String
  answer : String
  submittedAt : ℤ
  isCorrect : Bool
  scoreEarned : ℤ
  deriving Repr, DecidableEq, Inhabited

/-- Length of the trailing run of correct answers of a log, counted from
the end (the backward `for i := len-1 ... break` loops of
`Service.SubmitAnswer` and `Engine.ComputeFinalScore`). -/
def leadingCorrect : List AnswerRecord → ℕ
  | [] => 0
  | a :: rest => if a.isCorrect then leadingCorrect rest + 1 else 0

def trailingCorrect (l : List AnswerRecord) : ℕ := leadingCorrect l.reverse

/-- Go `match.QuestionPackItem` (types.go), restricted to the fields read by
`Service.SubmitAnswer` plus the prompt. -/
structure QuestionPackItem where
  order : ℤ
  token : String
  prompt : String
  correctAnswer : String
  deriving Repr, DecidableEq

/-- The failure modes of `Service.SubmitAnswer` (http.go:540-633), in the
order the code checks them. -/
inductive SubmitError
  | playerStateNotFound
  | questionsNotFound
  | invalidQuestionToken
  | questionAlreadyAnswered
  deriving Repr, DecidableEq

/-- Go `match.PlayerState`, restricted to the answer log. -/
structure PlayerState where
  answers : List AnswerRecord
  deriving Repr, DecidableEq

deriving instance DecidableEq for Except

/-- Go `Service.SubmitAnswer` (http.go:540-633).  Validates the token against
the pack, rejects duplicates by question order, computes correctness by
exact string equality, counts the streak as the trailing run of correct
answers in the existing log (the submission itself is not counted), clamps
`time_remaining = timeout - (now - submittedAt)` below at 0, scores, and
appends the record.  The error paths return before any mutation. -/
def submitAnswer (cfg : ScoringConfig) (questions : List QuestionPackItem)
    (state : Option PlayerState) (questionToken answer : String)
    (perQuestionTimeout now submittedAt : ℤ) : Except SubmitError PlayerState :=
  match state with
  | none => .error .playerStateNotFound
  | some st =>
    if questions.isEmpty then .error .questionsNotFound
    else
      match questions.find? (fun q => q.token == questionToken) with
      | none => .error .invalidQuestionToken
      | some q =>
        if st.answers.any (fun a => a.questionOrder == q.order) then
          .error .questionAlreadyAnswered
        else
          let isCorrect := answer == q.correctAnswer
          let streak : ℤ := trailingCorrect st.answers
          let tr := perQuestionTimeout - (now - submittedAt)
          let tr := if tr < 0 then 0 else tr
          let score := calculateScore cfg isCorrect tr perQuestionTimeout streak
          .ok ⟨st.answers ++
            [⟨q.order, questionToken, answer, submittedAt, isCorrect, score⟩]⟩

/-- Go `pkg/http/errors` `ErrCodeSubmitFailed`: the only error code
`Handler.handleSubmitAnswer` (http.go:1153-1179) ever sends for a failed
submission. -/
def ErrCodeSubmitFailed : String := "submit_failed"

/-- The `fmt.Errorf` messages of `Service.SubmitAnswer`'s failure paths. -/
def submitErrorMessage : SubmitError → String
  | .playerStateNotFound => "player state not found"
  | .questionsNotFound => "questions not found"
  | .invalidQuestionToken => "invalid question token"
  | .questionAlreadyAnswered => "question already answered"

/-- Go `Handler.handleSubmitAnswer` (http.go:1153-1179): any service error is
surfaced as `sendError(userID, ErrCodeSubmitFailed, err.Error())`, i.e. a
`(code, message)` pair whose code is always `submit_failed`. -/
def handleSubmitAnswerError (e : SubmitError) : String × String :=
  (ErrCodeSubmitFailed, submitErrorMessage e)

/-- Inner loop of `Engine.ComputeFinalScore` (engine.go:89-147): walking the
log with the already-visited prefix accumulated, each answer is re-scored
with streak `trailingCorrect prefix + 1 (if correct)` and time remaining
measured from the aggregation instant `now` (Go: `time.Since`). -/
def finalScoreAux (cfg : ScoringConfig) (timeout now : ℤ) :
    List AnswerRecord → List AnswerRecord → ℤ
  | _, [] => 0
  | prev, a :: rest =>
    let streakAtAnswer : ℤ :=
      (trailingCorrect prev : ℤ) + (if a.isCorrect then 1 else 0)
    let tr := timeout - (now - a.submittedAt)
    let tr := if tr < 0 then 0 else tr
    calculateScore cfg a.isCorrect tr timeout streakAtAnswer +
      finalScoreAux cfg timeout now (prev ++ [a]) rest

/-- The running `currentStreak`/`maxStreak` fold of `ComputeFinalScore`. -/
def maxStreakAux : List AnswerRecord → ℕ → ℕ → ℕ
  | [], _, maxS => maxS
  | a :: rest, cur, maxS =>
    if a.isCorrect then maxStreakAux rest (cur + 1) (max maxS (cur + 1))
    else maxStreakAux rest 0 maxS

/-- Go `Engine.ComputeFinalScore` (engine.go:89-147): returns
`(totalScore, accuracy, streakBonusPct)`.  The total is the sum of
re-computed per-answer scores, not of the recorded `ScoreEarned` values. -/
def computeFinalScore (cfg : ScoringConfig) (answers : List AnswerRecord)
    (timeout now : ℤ) : ℤ × ℚ × ℚ :=
  if answers.isEmpty then (0, 0, 0)
  else
    let total := finalScoreAux cfg timeout now [] answers
    let correctCount := (answers.filter (·.isCorrect)).length
    let maxStreak := maxStreakAux answers 0 0
    let accuracy := (correctCount : ℚ) / (answers.length : ℚ)
    let pct :=
      if maxStreak > 0 then
        let m := (maxStreak : ℚ) * cfg.streakBonusPercent
        if m > cfg.maxStreakBonus then cfg.maxStreakBonus else m
      else 0
    (total, accuracy, pct)

/-- Sum of the recorded per-answer `score_earned` values of a log. -/
def sumScoreEarned (l : List AnswerRecord) : ℤ := (l.map (·.scoreEarned)).sum

/-- The spec-side characterization of the finalization total: each answer
re-scored with the streak including the answer itself and time remaining
measured from the finalization instant, clamped below at 0. -/
def recomputePerAnswer (cfg : ScoringConfig) (timeout now : ℤ)
    (answers : List AnswerRecord) : List ℤ :=
  (List.range answers.length).map (fun i =>
    let prev := answers.take i
    let a := answers.getD i default
    calculateScore cfg a.isCorrect
      (max 0 (timeout - (now - a.submittedAt))) timeout
      ((trailingCorrect prev : ℤ) + (if a.isCorrect then 1 else 0)))

/-- The engine's sequential clamp (`if >1 then 1`, then `if <0 then 0`)
computes the clamp of the ratio to `[0,1]`. -/
lemma clamp_eq (r : ℚ) :
    (if (if r > 1 then 1 else r) < 0 then 0 else (if r > 1 then 1 else r)) =
      max 0 (min 1 r) := by
  by_cases h1 : r > 1
  · rw [if_pos h1, if_neg (by norm_num), min_eq_left (le_of_lt h1),
      max_eq_right (by norm_num : (0:ℚ) ≤ 1)]
  · rw [if_neg h1]
    by_cases h0 : r < 0
    · rw [if_pos h0, min_eq_right (le_of_lt (lt_of_lt_of_le h0 (by norm_num))),
        max_eq_left (le_of_lt h0)]
    · rw [if_neg h0, min_eq_right (not_lt.mp h1), max_eq_right (not_lt.mp h0)]

/-- The engine's streak cap (`if > cap then cap`) computes a minimum. -/
lemma cap_eq (m c : ℚ) : (if m > c then c else m) = min m c := by
  rcases le_or_lt m c with h | h
  · rw [if_neg (not_lt.mpr h), min_eq_left h]
  · rw [if_pos h, min_eq_right (le_of_lt h)]

/-- Go truncation agrees with the floor on nonnegative values. -/
lemma goTrunc_eq_floor {x : ℚ} (h : 0 ≤ x) : goTrunc x = ⌊x⌋ := if_pos h

/-- For a correct answer with positive timeout under default constants,
`CalculateScore` computes exactly the spec formula. -/
lemma calculateScore_correct_eq (t T : ℤ) (streak : ℕ) (hT : 0 < T) :
    calculateScore DefaultScoringConfig true t T streak =
      specAnswerScore t T streak := by
  unfold calculateScore specAnswerScore DefaultScoringConfig
  simp only [Bool.not_true, Bool.false_eq_true, if_false, if_pos hT]
  rw [clamp_eq]
  have hclamp : (0:ℚ) ≤ max 0 (min 1 ((t:ℚ) / (T:ℚ))) := le_max_left _ _
  rw [goTrunc_eq_floor (by positivity)]
  by_cases hs : (streak : ℤ) > 0
  · rw [if_pos hs, cap_eq]
    rw [goTrunc_eq_floor]
    have : (0:ℚ) ≤ min ((streak : ℚ) * (1/20)) (1/2) := by
      apply le_min (by positivity) (by norm_num)
    · push_cast
      ring_nf
    · apply mul_nonneg (by norm_num)
      exact le_min (by positivity) (by norm_num)
  · rw [if_neg hs]
    have hz : streak = 0 := by omega
    subst hz
    norm_num

/-- Bounds on the spec formula's components. -/
lemma specAnswerScore_bounds (t T : ℤ) (streak : ℕ) :
    100 ≤ specAnswerScore t T streak ∧ specAnswerScore t T streak ≤ 200 := by
  unfold specAnswerScore
  dsimp only
  set r := max 0 (min 1 ((t:ℚ) / (T:ℚ))) with hr
  have hr0 : (0:ℚ) ≤ r := le_max_left _ _
  have hr1 : r ≤ 1 := by
    apply max_le (by norm_num)
    exact min_le_left _ _
  set m := min ((streak : ℚ) * (1/20)) (1/2) with hm
  have hm0 : (0:ℚ) ≤ m := le_min (by positivity) (by norm_num)
  have hm1 : m ≤ 1/2 := min_le_right _ _
  have htb0 : (0:ℤ) ≤ ⌊(50:ℚ) * r⌋ := Int.floor_nonneg.mpr (by positivity)
  have htb1 : ⌊(50:ℚ) * r⌋ ≤ 50 := by
    have h : (50:ℚ) * r ≤ 50 := by nlinarith
    calc ⌊(50:ℚ) * r⌋ ≤ ⌊(50:ℚ)⌋ := Int.floor_le_floor h
    _ = 50 := by norm_num
  have hsb0 : (0:ℤ) ≤ ⌊(100:ℚ) * m⌋ := Int.floor_nonneg.mpr (by positivity)
  have hsb1 : ⌊(100:ℚ) * m⌋ ≤ 50 := by
    have h : (100:ℚ) * m ≤ 50 := by nlinarith
    calc ⌊(100:ℚ) * m⌋ ≤ ⌊(50:ℚ)⌋ := Int.floor_le_floor h
    _ = 50 := by norm_num
  omega

/-- C1: with per_question_timeout > 0 and default constants, an incorrect
answer scores 0; a correct one scores `base + floor(max_time_bonus ·
time_ratio) + floor(base · min(streak · 0.05, 0.50))` with the time ratio
clamped to `[0,1]`; consequently a correct answer scores in `[100, 200]`. -/
theorem calculateScore_matches_spec (t T : ℤ) (streak : ℕ) (hT : 0 < T) :
    calculateScore DefaultScoringConfig false t T streak = 0 ∧
    calculateScore DefaultScoringConfig true t T streak =
      specAnswerScore t T streak ∧
    100 ≤ calculateScore DefaultScoringConfig true t T streak ∧
    calculateScore DefaultScoringConfig true t T streak ≤ 200 := by
  refine ⟨rfl, calculateScore_correct_eq t T streak hT, ?_, ?_⟩
  · rw [calculateScore_correct_eq t T streak hT]
    exact (specAnswerScore_bounds t T streak).1
  · rw [calculateScore_correct_eq t T streak hT]
    exact (specAnswerScore_bounds t T streak).2

/-- Witness for C1 at `t = 5`, `T = 15`, `streak = 3`. -/
theorem calculateScore_matches_spec_witness :
    (0:ℤ) < 15 ∧
    (calculateScore DefaultScoringConfig false 5 15 3 = 0 ∧
     calculateScore DefaultScoringConfig true 5 15 3 = specAnswerScore 5 15 3 ∧
     100 ≤ calculateScore DefaultScoringConfig true 5 15 3 ∧
     calculateScore DefaultScoringConfig true 5 15 3 ≤ 200) :=
  ⟨by decide, calculateScore_matches_spec 5 15 3 (by decide)⟩

/-- The engine's lower clamp (`if <0 then 0`) computes a maximum. -/
lemma clamp0_eq (x : ℤ) : (if x < 0 then 0 else x) = max 0 x := by
  rcases lt_or_le x 0 with h | h
  · rw [if_pos h, max_eq_left (le_of_lt h)]
  · rw [if_neg (not_lt.mpr h), max_eq_right h]

/-- The aggregation loop of `ComputeFinalScore` computes, for any
accumulated prefix, the sum of the re-computed per-answer scores. -/
lemma finalScoreAux_eq_sum (cfg : ScoringConfig) (timeout now : ℤ)
    (rest : List AnswerRecord) :
    ∀ prev, finalScoreAux cfg timeout now prev rest =
      ((List.range rest.length).map (fun i =>
        let a := rest.getD i default
        calculateScore cfg a.isCorrect
          (max 0 (timeout - (now - a.submittedAt))) timeout
          ((trailingCorrect (prev ++ rest.take i) : ℤ) +
            (if a.isCorrect then 1 else 0)))).sum := by
  induction rest with
  | nil => intro prev; simp [finalScoreAux]
  | cons a rest ih =>
    intro prev
    rw [finalScoreAux]
    simp only [List.length_cons, List.range_succ_eq_map, List.map_cons,
      List.sum_cons, List.map_map]
    dsimp only [Function.comp, Nat.succ_eq_add_one, List.getD_cons_zero,
      List.getD_cons_succ, List.take_zero, List.take_succ_cons]
    rw [clamp0_eq, List.append_nil]
    congr 1
    rw [ih (prev ++ [a])]
    congr 1
    apply List.map_congr_left
    intro i _
    simp [Function.comp_apply, List.getD_cons_succ, List.take_succ_cons,
      List.append_assoc, List.singleton_append]

/-- Amended C2: at finalization, the player's total score is the sum of the
per-answer scores *re-computed* by `ComputeFinalScore` — with the streak
including the answer itself and time remaining measured from the
finalization instant, clamped below at 0 — not the sum of the recorded
`score_earned` values. -/
theorem computeFinalScore_total_recomputed (cfg : ScoringConfig)
    (answers : List AnswerRecord) (timeout now : ℤ) :
    (computeFinalScore cfg answers timeout now).1 =
      (recomputePerAnswer cfg timeout now answers).sum := by
  unfold computeFinalScore recomputePerAnswer
  cases answers with
  | nil => simp
  | cons a rest =>
    rw [if_neg (by simp)]
    dsimp only
    rw [finalScoreAux_eq_sum]
    simp only [List.nil_append]

/-- Counterexample to C2: a lone correct instant answer is recorded with
`score_earned = 150` (streak 0 at submission), yet finalization at the same
instant re-computes it with streak 1 and totals 155 ≠ 150. -/
theorem finalScore_ne_sumRecorded_cex :
    submitAnswer DefaultScoringConfig [⟨1, "tok1", "2+2?", "4"⟩]
        (some ⟨[]⟩) "tok1" "4" 15 0 0 =
      .ok ⟨[⟨1, "tok1", "4", 0, true, 150⟩]⟩ ∧
    (computeFinalScore DefaultScoringConfig
        [⟨1, "tok1", "4", 0, true, 150⟩] 15 0).1 = 155 ∧
    sumScoreEarned [⟨1, "tok1", "4", 0, true, 150⟩] = 150 ∧
    (155 : ℤ) ≠ 150 := by
  refine ⟨?_, ?_, by decide, by decide⟩
  · norm_num [submitAnswer, calculateScore, DefaultScoringConfig, goTrunc,
      trailingCorrect, leadingCorrect]
  · norm_num [computeFinalScore, finalScoreAux, calculateScore,
      DefaultScoringConfig, goTrunc, trailingCorrect, leadingCorrect,
      maxStreakAux]

/-- Counterexample to C3: the first correct answer of a match is scored
with streak 0 — `SubmitAnswer` passes the trailing run of the *prior*
history without adding the current submission — so an instant first
correct answer earns 150, not the 155 the claim's `k+1` convention
(streak bonus `floor(100·0.05) = 5`) predicts. -/
theorem submit_first_correct_streak_cex :
    submitAnswer DefaultScoringConfig [⟨1, "tok1", "2+2?", "4"⟩]
        (some ⟨[]⟩) "tok1" "4" 15 0 0 =
      .ok ⟨[⟨1, "tok1", "4", 0, true, 150⟩]⟩ ∧
    specAnswerScore 15 15 1 = 155 ∧
    (150 : ℤ) ≠ 155 := by
  refine ⟨?_, ?_, by decide⟩
  · norm_num [submitAnswer, calculateScore, DefaultScoringConfig, goTrunc,
      trailingCorrect, leadingCorrect]
  · norm_num [specAnswerScore]

/-- The spec formula is insensitive to clamping the raw time remaining
below at 0 (its own ratio clamp already handles negatives). -/
lemma specAnswerScore_clamp0 (t T : ℤ) (k : ℕ) (hT : 0 < T) :
    specAnswerScore (max 0 t) T k = specAnswerScore t T k := by
  unfold specAnswerScore
  dsimp only
  have hratio : max 0 (min 1 (((max 0 t : ℤ) : ℚ) / (T : ℚ))) =
      max 0 (min 1 ((t : ℚ) / (T : ℚ))) := by
    rcases le_or_lt 0 t with h | h
    · rw [max_eq_right h]
    · rw [max_eq_left (le_of_lt h)]
      have hTq : (0 : ℚ) < (T : ℚ) := by exact_mod_cast hT
      have hr : ((t : ℚ) / (T : ℚ)) < 0 :=
        div_neg_of_neg_of_pos (by exact_mod_cast h) hTq
      rw [min_eq_right (le_of_lt (lt_of_lt_of_le hr (by norm_num))),
        max_eq_left (le_of_lt hr)]
      norm_num
  rw [hratio]

/-- Amended C3: an accepted correct submission is scored with streak `k`
where `k` is the trailing run of correct answers in the player's existing
log, *excluding* the submission itself; in particular the first correct
answer of a match (`k = 0`) earns no streak bonus. -/
theorem submit_streak_prior_run (questions : List QuestionPackItem)
    (st : PlayerState) (tok ans : String) (T now sub : ℤ)
    (q : QuestionPackItem) (k : ℕ)
    (hT : 0 < T)
    (hfind : questions.find? (fun q' => q'.token == tok) = some q)
    (hnew : st.answers.any (fun a => a.questionOrder == q.order) = false)
    (hans : ans = q.correctAnswer)
    (hk : trailingCorrect st.answers = k) :
    submitAnswer DefaultScoringConfig questions (some st) tok ans T now sub =
      .ok ⟨st.answers ++ [⟨q.order, tok, ans, sub, true,
        specAnswerScore (T - (now - sub)) T k⟩]⟩ := by
  have hne : questions.isEmpty = false := by
    cases questions with
    | nil => simp [List.find?] at hfind
    | cons _ _ => rfl
  simp only [submitAnswer, hne, Bool.false_eq_true, if_false, hfind, hnew]
  subst hans
  simp only [beq_self_eq_true, hk]
  rw [clamp0_eq, calculateScore_correct_eq _ _ _ hT,
    specAnswerScore_clamp0 _ _ _ hT]

/-- Witness for the amended C3 at a concrete first correct answer. -/
theorem submit_streak_prior_run_witness :
    (0 : ℤ) < 15 ∧
    ([⟨1, "tok1", "2+2?", "4"⟩] : List QuestionPackItem).find?
        (fun q' => q'.token == "tok1") = some ⟨1, "tok1", "2+2?", "4"⟩ ∧
    (([] : List AnswerRecord).any (fun a => a.questionOrder == 1)) = false ∧
    trailingCorrect [] = 0 ∧
    submitAnswer DefaultScoringConfig [⟨1, "tok1", "2+2?", "4"⟩]
        (some ⟨[]⟩) "tok1" "4" 15 0 0 =
      .ok ⟨[⟨1, "tok1", "4", 0, true, specAnswerScore (15 - (0 - 0)) 15 0⟩]⟩ :=
  ⟨by decide, by decide, by decide, by decide,
    submit_streak_prior_run [⟨1, "tok1", "2+2?", "4"⟩] ⟨[]⟩ "tok1" "4" 15 0 0
      ⟨1, "tok1", "2+2?", "4"⟩ 0 (by decide) (by decide) (by decide) rfl
      (by decide)⟩

/-- Counterexample to C4: a submission whose token matches no pack item is
rejected, but the protocol error code the handler sends is `submit_failed`
(carrying "invalid question token" only as the human message), not
`invalid_question_token`. -/
theorem submit_reject_code_cex :
    submitAnswer DefaultScoringConfig [⟨1, "tok1", "2+2?", "4"⟩]
        (some ⟨[]⟩) "badtok" "4" 15 0 0 = .error .invalidQuestionToken ∧
    (handleSubmitAnswerError .invalidQuestionToken).1 = "submit_failed" ∧
    "submit_failed" ≠ "invalid_question_token" := by
  refine ⟨by decide, rfl, by decide⟩

/-- Amended C4: an unknown question token makes `SubmitAnswer` fail before
any mutation with the service error "invalid question token", and an
already-answered question order with "question already answered"; in both
cases `handleSubmitAnswer` surfaces the failure to the client under the
single protocol code `submit_failed` with the service message as text. -/
theorem submit_reject_paths (questions : List QuestionPackItem)
    (st : PlayerState) (tok1 tok2 ans : String) (T now sub : ℤ)
    (q : QuestionPackItem)
    (hne : questions ≠ [])
    (h1 : questions.find? (fun q' => q'.token == tok1) = none)
    (h2 : questions.find? (fun q' => q'.token == tok2) = some q)
    (h3 : st.answers.any (fun a => a.questionOrder == q.order) = true) :
    submitAnswer DefaultScoringConfig questions (some st) tok1 ans T now sub =
      .error .invalidQuestionToken ∧
    handleSubmitAnswerError .invalidQuestionToken =
      ("submit_failed", "invalid question token") ∧
    submitAnswer DefaultScoringConfig questions (some st) tok2 ans T now sub =
      .error .questionAlreadyAnswered ∧
    handleSubmitAnswerError .questionAlreadyAnswered =
      ("submit_failed", "question already answered") := by
  have hempty : questions.isEmpty = false := by
    cases questions with
    | nil => exact absurd rfl hne
    | cons _ _ => rfl
  refine ⟨?_, rfl, ?_, rfl⟩
  · simp only [submitAnswer, hempty, Bool.false_eq_true, if_false, h1]
  · simp only [submitAnswer, hempty, Bool.false_eq_true, if_false, h2, h3,
      if_true]

/-- Witness for the amended C4: a one-item pack, a bad token, and a state
that already answered order 1. -/
theorem submit_reject_paths_witness :
    ([⟨1, "tok1", "2+2?", "4"⟩] : List QuestionPackItem) ≠ [] ∧
    ([⟨1, "tok1", "2+2?", "4"⟩] : List QuestionPackItem).find?
        (fun q' => q'.token == "zzz") = none ∧
    ([⟨1, "tok1", "2+2?", "4"⟩] : List QuestionPackItem).find?
        (fun q' => q'.token == "tok1") = some ⟨1, "tok1", "2+2?", "4"⟩ ∧
    ([⟨1, "tok1", "4", 0, true, 150⟩] : List AnswerRecord).any
        (fun a => a.questionOrder == (1 : ℤ)) = true ∧
    (submitAnswer DefaultScoringConfig [⟨1, "tok1", "2+2?", "4"⟩]
        (some ⟨[⟨1, "tok1", "4", 0, true, 150⟩]⟩) "zzz" "4" 15 0 0 =
      .error .invalidQuestionToken ∧
    handleSubmitAnswerError .invalidQuestionToken =
      ("submit_failed", "invalid question token") ∧
    submitAnswer DefaultScoringConfig [⟨1, "tok1", "2+2?", "4"⟩]
        (some ⟨[⟨1, "tok1", "4", 0, true, 150⟩]⟩) "tok1" "4" 15 0 0 =
      .error .questionAlreadyAnswered ∧
    handleSubmitAnswerError .questionAlreadyAnswered =
      ("submit_failed", "question already answered")) :=
  ⟨by decide, by decide, by decide, by decide,
    submit_reject_paths [⟨1, "tok1", "2+2?", "4"⟩]
      ⟨[⟨1, "tok1", "4", 0, true, 150⟩]⟩ "zzz" "tok1" "4" 15 0 0
      ⟨1, "tok1", "2+2?", "4"⟩ (by decide) (by decide) (by decide)
      (by decide)⟩

/-- Go `question.Question`, restricted to identity-relevant fields. -/
structure Question where
  id : String
  prompt : String
  correctAnswer : String
  deriving Repr, DecidableEq

/-- The terminal failures of `Service.FetchPack` (service.go). -/
inductive FetchError
  | insufficientQuestions
  | insufficientUniqueQuestions
  deriving Repr, DecidableEq

/-- Go `checkWithinMatchDuplicates` (service.go:461-476): first-occurrence
unique id list plus a had-duplicates flag. -/
def cwmGo (seen : List String) : List String → List String × Bool
  | [] => ([], false)
  | id :: rest =>
    if seen.contains id then
      let r := cwmGo seen rest
      (r.1, true)
    else
      let r := cwmGo (id :: seen) rest
      (id :: r.1, r.2)

def checkWithinMatchDuplicates (ids : List String) : List String × Bool :=
  cwmGo [] ids

/-- The regeneration append loop of FetchPack's Level-1 dedup: add each
candidate whose id is not yet present while below the target count. -/
def fillUnique (filtered adds : List Question) (total : ℕ) : List Question :=
  adds.foldl (fun acc q =>
    if (acc.map (·.id)).contains q.id then acc
    else if acc.length < total then acc ++ [q]
    else acc) filtered

/-- Level 1 (within-match) uniqueness stage of `Service.FetchPack`
(service.go:105-163).  NOTE: faithfully to the source, the filter keeps
every occurrence whose id appears in `uniqueIDs` — which is every
occurrence — so duplicates survive when the batch already meets the
target count. -/
def level1Stage (total : ℕ) (regenRetry : Option (List Question))
    (result : List Question) : List Question :=
  let ids := result.map (·.id)
  let u := checkWithinMatchDuplicates ids
  if u.2 then
    let filtered := result.filter (fun q => u.1.contains q.id)
    let needed : ℤ := (total : ℤ) - filtered.length
    if needed > 0 then
      match regenRetry with
      | none => filtered
      | some adds => fillUnique filtered adds total
    else filtered
  else result

/-- Go `Service.checkBothPlayersHistory` (service.go:511-561) with live
backing store: ids unseen by both players, plus each player's per-
occurrence duplicate count. -/
def checkBothPlayersHistory (seen1 seen2 : List String) (ids : List String) :
    List String × ℕ × ℕ :=
  (ids.filter (fun id => !seen1.contains id && !seen2.contains id),
   (ids.filter (fun id => seen1.contains id)).length,
   (ids.filter (fun id => seen2.contains id)).length)

/-- The `maxDup > 3` filter: keep the first occurrence of each id unseen
by both players (`seenInMatch` dedup). -/
def dedupFilterUnseen (result : List Question) (unseenByBoth : List String) :
    List Question :=
  result.foldl (fun acc q =>
    if unseenByBoth.contains q.id && !(acc.map (·.id)).contains q.id then
      acc ++ [q]
    else acc) []

/-- The `maxDup > 3` regeneration loop: append candidates unseen by both
players, not already in the match, while below the target count. -/
def fillUnseen (filtered adds : List Question) (total : ℕ)
    (seen1 seen2 : List String) : List Question :=
  adds.foldl (fun acc q =>
    if (!seen1.contains q.id && !seen2.contains q.id) &&
        !(acc.map (·.id)).contains q.id && acc.length < total then
      acc ++ [q]
    else acc) filtered

/-- The `1 ≤ maxDup ≤ 3` fill-back: re-add per-id duplicates (one admissible
iteration order of Go's `duplicateMap`: first occurrence of each seen id)
until the target count is reached. -/
def fillBackDuplicates (filtered result : List Question)
    (unseenByBoth : List String) (total : ℕ) : List Question :=
  let dups := (result.filter (fun q => !unseenByBoth.contains q.id)).foldl
    (fun acc q => if (acc.map (·.id)).contains q.id then acc else acc ++ [q]) []
  dups.foldl (fun acc q => if acc.length < total then acc ++ [q] else acc)
    filtered

/-- Level 2 (cross-match, random_1v1 with both user ids) uniqueness stage
of `Service.FetchPack` (service.go:176-283). -/
def level2Stage (total : ℕ) (seen1 seen2 : List String)
    (regenUnique : Option (List Question)) (result : List Question) :
    Except FetchError (List Question) :=
  let finalIDs := result.map (·.id)
  let c := checkBothPlayersHistory seen1 seen2 finalIDs
  let maxDup := max c.2.1 c.2.2
  let result :=
    if maxDup > 3 then
      let filtered := dedupFilterUnseen result c.1
      let needed : ℤ := (total : ℤ) - filtered.length
      if needed > 0 then
        match regenUnique with
        | none => filtered
        | some adds => fillUnseen filtered adds total seen1 seen2
      else result
    else if maxDup > 0 then
      let filtered := result.filter (fun q => c.1.contains q.id)
      let needed : ℤ := (total : ℤ) - filtered.length
      if needed > 0 ∧ needed ≤ (maxDup : ℤ) then
        fillBackDuplicates filtered result c.1 total
      else filtered
    else result
  if result.length < total then .error .insufficientUniqueQuestions
  else .ok (result.take total)

/-- Go `Service.FetchPack` (service.go:105-283) on a cache miss for a
random_1v1 match with two known players: the already-assembled batch
(stages 1-2, curated + AI) runs through Level-1 dedup, the count check
with trim, and Level-2 cross-match filtering.  The AI regeneration calls
are oracles (`none` models a failed call). -/
def fetchPackPipeline (total : ℕ) (assembled : List Question)
    (regenRetry regenUnique : Option (List Question))
    (seen1 seen2 : List String) : Except FetchError (List Question) :=
  let result := level1Stage total regenRetry assembled
  if result.length < total then .error .insufficientQuestions
  else level2Stage total seen1 seen2 regenUnique (result.take total)

/-- C5 (code bug): an assembled random_1v1 batch containing the same
question id twice, already at the target count and with empty player
histories, passes every uniqueness stage and is returned successfully
with duplicate ids — the Level-1 filter `uniqueMap[q.ID]` keeps every
occurrence, so the "Filter out duplicates" step removes nothing. -/
theorem fetchPack_duplicate_ids_bug :
    fetchPackPipeline 2 [⟨"a", "p1", "x"⟩, ⟨"a", "p2", "y"⟩] none none [] [] =
      .ok [⟨"a", "p1", "x"⟩, ⟨"a", "p2", "y"⟩] ∧
    ¬ (([⟨"a", "p1", "x"⟩, ⟨"a", "p2", "y"⟩] : List Question).map
        (fun q => q.id)).Nodup := by
  refine ⟨by decide, by decide⟩

/-- The RFC 4648 standard base32 alphabet used by Go's
`base32.StdEncoding`. -/
def base32Alphabet : List Char :=
  ['A', 'B', 'C', 'D', 'E', 'F', 'G', 'H', 'I', 'J', 'K', 'L', 'M',
   'N', 'O', 'P', 'Q', 'R', 'S', 'T', 'U', 'V', 'W', 'X', 'Y', 'Z',
   '2', '3', '4', '5', '6', '7']

def base32Char (n : ℕ) : Char := base32Alphabet.getD (n % 32) 'A'

/-- First 6 characters of the unpadded base32 encoding of 4 bytes (what
`RoomManager.generateRoomCode`, room.go:189-207, computes from its random
bytes): the 32 input bits are consumed 5 at a time from the top. -/
def encodeBase32First6 (b0 b1 b2 b3 : ℕ) : String :=
  let n := b0 % 256 * 2 ^ 24 + b1 % 256 * 2 ^ 16 + b2 % 256 * 2 ^ 8 + b3 % 256
  String.mk ((List.range 6).map (fun i => base32Char (n / 2 ^ (27 - 5 * i))))

/-- Go `RoomManager.generateRoomCode` (room.go:189-207), driven by the stream
of 4-byte draws from `crypto/rand`: rejection-sample until the encoded
6-character code is not the code of an existing room.  `none` models
exhausting the (infinite in Go) stream without success. -/
def generateRoomCode : List (ℕ × ℕ × ℕ × ℕ) → List String → Option String
  | [], _ => none
  | b :: rest, existing =>
    let code := encodeBase32First6 b.1 b.2.1 b.2.2.1 b.2.2.2
    if existing.contains code then generateRoomCode rest existing
    else some code

/-- Every character the encoder emits is from the base32 alphabet. -/
lemma base32Char_mem (n : ℕ) : base32Char n ∈ base32Alphabet := by
  unfold base32Char
  rcases lt_or_le (n % 32) base32Alphabet.length with h | h
  · rw [List.getD_eq_getElem _ _ h]
    exact List.getElem_mem _
  · rw [List.getD_eq_default _ _ h]
    decide

lemma encodeBase32First6_length (b0 b1 b2 b3 : ℕ) :
    (encodeBase32First6 b0 b1 b2 b3).length = 6 := by
  simp [encodeBase32First6, String.length]

lemma encodeBase32First6_chars (b0 b1 b2 b3 : ℕ) :
    ∀ c ∈ (encodeBase32First6 b0 b1 b2 b3).data, c ∈ base32Alphabet := by
  intro c hc
  simp only [encodeBase32First6, List.mem_map] at hc
  obtain ⟨i, -, rfl⟩ := hc
  exact base32Char_mem _

/-- Counterexample to C6: the random draw `(0,0,0,0)` — reachable, since
the bytes come uniformly from `crypto/rand` — produces the room code
"AAAAAA", which contains no decimal digit at all, so room codes are not
6-digit decimal codes in [100000, 999999]. -/
theorem roomCode_not_decimal_cex :
    generateRoomCode [(0, 0, 0, 0)] [] = some "AAAAAA" ∧
    'A' ∈ "AAAAAA".data ∧ 'A'.isDigit = false := by
  refine ⟨by decide, by decide, by decide⟩

/-- Amended C6: every code `generateRoomCode` returns is a 6-character
string over the base32 alphabet `A–Z, 2–7`, obtained by rejection
sampling, and differs from the code of every room currently stored by the
manager (the map holds all rooms, with no terminal-status distinction). -/
theorem generateRoomCode_spec (cands : List (ℕ × ℕ × ℕ × ℕ))
    (existing : List String) (code : String)
    (h : generateRoomCode cands existing = some code) :
    code.length = 6 ∧ (∀ c ∈ code.data, c ∈ base32Alphabet) ∧
      existing.contains code = false := by
  induction cands with
  | nil => exact absurd h (by simp [generateRoomCode])
  | cons b rest ih =>
    rw [generateRoomCode] at h
    by_cases hmem :
        existing.contains (encodeBase32First6 b.1 b.2.1 b.2.2.1 b.2.2.2) = true
    · rw [if_pos hmem] at h
      exact ih h
    · rw [if_neg hmem] at h
      obtain rfl : encodeBase32First6 b.1 b.2.1 b.2.2.1 b.2.2.2 = code :=
        Option.some.inj h
      exact ⟨encodeBase32First6_length _ _ _ _,
        encodeBase32First6_chars _ _ _ _, Bool.eq_false_iff.mpr hmem⟩

/-- Witness for the amended C6: one draw against one existing room. -/
theorem generateRoomCode_spec_witness :
    generateRoomCode [(0, 0, 0, 0)] ["BBBBBB"] = some "AAAAAA" ∧
    ("AAAAAA".length = 6 ∧ (∀ c ∈ "AAAAAA".data, c ∈ base32Alphabet) ∧
      (["BBBBBB"] : List String).contains "AAAAAA" = false) :=
  ⟨by decide,
    generateRoomCode_spec [(0, 0, 0, 0)] ["BBBBBB"] "AAAAAA" (by decide)⟩

/-- A finalized player's data as `Service.FinalizeMatch` sees it when
building leaderboard requests (http.go:788-802). -/
structure FinalPlayer where
  userID : String
  username : String
  isGuest : Bool
  score : ℤ
  deriving Repr, DecidableEq

/-- A leaderboard write issued at finalization: either
`RecordPrivateRoomResult` on the room-code-keyed structure, or
`RecordResult` on the global windows (daily/weekly/monthly/all_time). -/
inductive LbCall
  | privateRoom (roomCode : String) (userID : String) (won : Bool)
  | global (userID : String) (won : Bool)
  deriving Repr, DecidableEq

def lbCallUser : LbCall → String
  | .privateRoom _ u _ => u
  | .global u _ => u

def LbCall.isGlobal : LbCall → Bool
  | .global _ _ => true
  | _ => false

/-- The routing of one request (http.go:820-840): private-room matches with
a known room code go to the room leaderboard, random_1v1 matches to the
global windows, anything else nowhere. -/
def routeCall (isPrivateRoom : Bool) (roomCode mode : String)
    (r : FinalPlayer) (won : Bool) : Option LbCall :=
  if isPrivateRoom && (roomCode != "") then
    some (.privateRoom roomCode r.userID won)
  else if mode == "random_1v1" then some (.global r.userID won)
  else none

/-- The leaderboard section of `Service.FinalizeMatch` (http.go:788-840):
requests are collected only for players passing
`leaderboardEligible && !state.IsGuest`; the highest score marks winners;
each request is routed by match mode. -/
def finalizeLeaderboardCalls (eligible isPrivateRoom : Bool)
    (roomCode mode : String) (states : List FinalPlayer) : List LbCall :=
  let reqs := states.filter (fun s => eligible && !s.isGuest)
  match reqs with
  | [] => []
  | r :: rs =>
    let highest := rs.foldl (fun h x => max h x.score) r.score
    (r :: rs).filterMap
      (fun x => routeCall isPrivateRoom roomCode mode x (x.score == highest))

/-- Counterexample to C7: finalizing a private-room match between
registered host H and guest G records a room-leaderboard result for H
only — the guest is filtered out by `!state.IsGuest` — so the room-scoped
aggregate does not contain both participants. -/
theorem privateRoom_guest_not_recorded_cex :
    finalizeLeaderboardCalls true true "RM1" "private_room"
        [⟨"H", "host", false, 100⟩, ⟨"G", "guest", true, 80⟩] =
      [.privateRoom "RM1" "H" true] ∧
    ((finalizeLeaderboardCalls true true "RM1" "private_room"
        [⟨"H", "host", false, 100⟩, ⟨"G", "guest", true, 80⟩]).map
          lbCallUser).contains "G" = false := by
  refine ⟨by decide, by decide⟩

/-- Mapping a run of private-room records back to their users is the
identity on the request list's users. -/
lemma map_user_filterMap_private (roomCode : String) (w : FinalPlayer → Bool)
    (l : List FinalPlayer) :
    (l.filterMap (fun x =>
        some (LbCall.privateRoom roomCode x.userID (w x)))).map lbCallUser =
      l.map (fun s => s.userID) := by
  induction l with
  | nil => rfl
  | cons a l ih => simp [List.filterMap_cons, lbCallUser, ih]

/-- Amended C7: when an eligible private-room match with a known room code
is finalized, a room-leaderboard result is recorded exactly for the
non-guest participants (a guest participant is not recorded), and no
global window is updated. -/
theorem privateRoom_routing (roomCode mode : String)
    (states : List FinalPlayer) (h : roomCode ≠ "") :
    ((finalizeLeaderboardCalls true true roomCode mode states).map
        lbCallUser =
      (states.filter (fun s => !s.isGuest)).map (fun s => s.userID)) ∧
    (∀ c ∈ finalizeLeaderboardCalls true true roomCode mode states,
      c.isGlobal = false) := by
  have hroute : ∀ (x : FinalPlayer) (w : Bool),
      routeCall true roomCode mode x w =
        some (.privateRoom roomCode x.userID w) := by
    intro x w
    unfold routeCall
    rw [if_pos]
    simp [bne_iff_ne, h]
  unfold finalizeLeaderboardCalls
  have hfilter : states.filter (fun s => true && !s.isGuest) =
      states.filter (fun s => !s.isGuest) := by simp
  rw [hfilter]
  cases hF : states.filter (fun s => !s.isGuest) with
  | nil => simp
  | cons r rs =>
    dsimp only
    constructor
    · have heq : (fun x : FinalPlayer =>
          routeCall true roomCode mode x
            (x.score == rs.foldl (fun h x => max h x.score) r.score)) =
          fun x => some (LbCall.privateRoom roomCode x.userID
            (x.score == rs.foldl (fun h x => max h x.score) r.score)) :=
        funext fun x => hroute x _
      rw [heq, map_user_filterMap_private roomCode
        (fun x => x.score == rs.foldl (fun h x => max h x.score) r.score)]
    · intro c hc
      rw [List.mem_filterMap] at hc
      obtain ⟨x, -, hx⟩ := hc
      rw [hroute] at hx
      obtain rfl := Option.some.inj hx
      rfl

/-- Witness for the amended C7 at the host-and-guest instance. -/
theorem privateRoom_routing_witness :
    ("RM1" : String) ≠ "" ∧
    (((finalizeLeaderboardCalls true true "RM1" "private_room"
        [⟨"H", "host", false, 100⟩, ⟨"G", "guest", true, 80⟩]).map
          lbCallUser =
      (([⟨"H", "host", false, 100⟩, ⟨"G", "guest", true, 80⟩] :
          List FinalPlayer).filter (fun s => !s.isGuest)).map
        (fun s => s.userID)) ∧
    (∀ c ∈ finalizeLeaderboardCalls true true "RM1" "private_room"
        [⟨"H", "host", false, 100⟩, ⟨"G", "guest", true, 80⟩],
      c.isGlobal = false)) :=
  ⟨by decide,
    privateRoom_routing "RM1" "private_room"
      [⟨"H", "host", false, 100⟩, ⟨"G", "guest", true, 80⟩] (by decide)⟩

/-- Go `match.RoomPlayer` (room.go). -/
structure RoomPlayer where
  userID : String
  displayName : String
  isGuest : Bool
  isHost : Bool
  deriving Repr, DecidableEq

/-- Go `match.PrivateRoom` (room.go), restricted to the fields `JoinRoom`
reads. -/
structure PrivateRoom where
  roomCode : String
  hostID : String
  maxPlayers : ℕ
  players : List RoomPlayer
  status : String
  deriving Repr, DecidableEq

/-- The failure modes of `RoomManager.JoinRoom` (room.go:103-141). -/
inductive JoinError
  | roomNotFound
  | roomNotAccepting
  | roomFull
  deriving Repr, DecidableEq

def RoomStatusWaiting : String := "waiting"

/-- Go `RoomManager.JoinRoom` (room.go:103-141).  The `rooms` map is an
association list from room code to room.  A caller whose user id is
already among the room's players — the host included, since the host is a
player from creation — gets the room back with **no error** ("already in
room"); there is no separate host check. -/
def joinRoom (rooms : List (String × PrivateRoom)) (code userID
    displayName : String) (isGuest : Bool) : Except JoinError PrivateRoom :=
  match rooms.find? (fun p => p.1 == code) with
  | none => .error .roomNotFound
  | some pr =>
    let room := pr.2
    if room.status != RoomStatusWaiting then .error .roomNotAccepting
    else if room.players.length ≥ room.maxPlayers then .error .roomFull
    else if room.players.any (fun p => p.userID == userID) then .ok room
    else .ok { room with
      players := room.players ++ [⟨userID, displayName, isGuest, false⟩] }

/-- Counterexample to C8: on a waiting room with a free slot, both a
re-joining host and a re-joining member succeed with the unchanged room —
the code returns `room, nil` for any caller already in the players list
and contains no `user_already_in_room` or `host_cannot_rejoin` error. -/
theorem joinRoom_rejoin_cex :
    joinRoom [("C1", ⟨"C1", "H", 2, [⟨"H", "host", false, true⟩],
        "waiting"⟩)] "C1" "H" "host" false =
      .ok ⟨"C1", "H", 2, [⟨"H", "host", false, true⟩], "waiting"⟩ ∧
    joinRoom [("C2", ⟨"C2", "H", 3, [⟨"H", "host", false, true⟩,
        ⟨"U", "u", false, false⟩], "waiting"⟩)] "C2" "U" "u" false =
      .ok ⟨"C2", "H", 3, [⟨"H", "host", false, true⟩,
        ⟨"U", "u", false, false⟩], "waiting"⟩ := by
  refine ⟨by decide, by decide⟩

/-- Amended C8: joining a waiting room with a free slot as a user who is
already a member (the host included) is an error-free no-op returning the
room unchanged; the only join failures are room_not_found,
room_not_accepting_players and room_full. -/
theorem joinRoom_member_idempotent (rooms : List (String × PrivateRoom))
    (code userID displayName : String) (isGuest : Bool)
    (pr : String × PrivateRoom)
    (hfind : rooms.find? (fun p => p.1 == code) = some pr)
    (hw : pr.2.status = "waiting")
    (hfree : pr.2.players.length < pr.2.maxPlayers)
    (hmem : pr.2.players.any (fun p => p.userID == userID) = true) :
    joinRoom rooms code userID displayName isGuest = .ok pr.2 := by
  unfold joinRoom
  rw [hfind]
  dsimp only
  rw [if_neg (by simp [hw, RoomStatusWaiting]),
    if_neg (not_le.mpr hfree), if_pos hmem]

/-- Witness for the amended C8: the host re-joining their waiting room. -/
theorem joinRoom_member_idempotent_witness :
    ([("C1", (⟨"C1", "H", 2, [⟨"H", "host", false, true⟩], "waiting"⟩ :
        PrivateRoom))].find? (fun p => p.1 == "C1") =
      some ("C1", ⟨"C1", "H", 2, [⟨"H", "host", false, true⟩],
        "waiting"⟩)) ∧
    joinRoom [("C1", ⟨"C1", "H", 2, [⟨"H", "host", false, true⟩],
        "waiting"⟩)] "C1" "H" "host" false =
      .ok ⟨"C1", "H", 2, [⟨"H", "host", false, true⟩], "waiting"⟩ :=
  ⟨by decide,
    joinRoom_member_idempotent _ "C1" "H" "host" false
      ("C1", ⟨"C1", "H", 2, [⟨"H", "host", false, true⟩], "waiting"⟩)
      (by decide) rfl (by decide) (by decide)⟩

/-- Go `queue.WaitingPlayer` (manager.go), restricted to the fields Enqueue
reads and writes. -/
structure WaitingPlayer where
  userID : String
  displayName : String
  isGuest : Bool
  botOK : Bool
  queueToken : String
  deriving Repr, DecidableEq

/-- Go `queue.MatchPair` (manager.go). -/
structure MatchPair where
  player1 : WaitingPlayer
  player2 : WaitingPlayer
  deriving Repr, DecidableEq

/-- Go `queue.MatchmakingRequest` (manager.go). -/
structure MatchmakingRequest where
  userID : String
  displayName : String
  isGuest : Bool
  botOK : Bool
  deriving Repr, DecidableEq

/-- Go `Manager.isCompatible` (manager.go): any two players match. -/
def isCompatible (_p1 _p2 : WaitingPlayer) : Bool := true

/-- Go `Manager.Enqueue` (manager.go:50-89).  The waiting table is an
association list from queue token to player (one admissible iteration
order of Go's map).  A compatible peer with a different user id yields a
MatchPair, with the peer deleted and the fresh token never installed;
otherwise the caller is installed under the fresh token. -/
def enqueue (waiting : List (String × WaitingPlayer)) (queueToken : String)
    (req : MatchmakingRequest) :
    List (String × WaitingPlayer) × Option MatchPair :=
  let player : WaitingPlayer :=
    ⟨req.userID, req.displayName, req.isGuest, req.botOK, queueToken⟩
  match waiting.find?
      (fun e => e.2.userID != req.userID && isCompatible player e.2) with
  | some other =>
    (waiting.eraseP (fun e => e.1 == other.1), some ⟨player, other.2⟩)
  | none => (waiting ++ [(queueToken, player)], none)

/-- Go `Manager.Dequeue` (manager.go:92-103). -/
def dequeue (waiting : List (String × WaitingPlayer)) (queueToken : String) :
    Except String (List (String × WaitingPlayer)) :=
  if waiting.any (fun e => e.1 == queueToken) then
    .ok (waiting.eraseP (fun e => e.1 == queueToken))
  else .error "queue token not found"

/-- Go `Manager.GetPosition` (manager.go:106-118): observed index, `-1` when
the token is absent. -/
def getPosition (waiting : List (String × WaitingPlayer))
    (queueToken : String) : ℤ :=
  match waiting.findIdx? (fun e => e.1 == queueToken) with
  | some i => (i : ℤ)
  | none => -1

/-- Deleting a key from an association list with distinct keys leaves no
entry under that key. -/
lemma eraseP_key {α : Type} (t : String) (l : List (String × α))
    (hkeys : (l.map Prod.fst).Nodup) :
    ∀ e ∈ l.eraseP (fun e => e.1 == t), e.1 ≠ t := by
  induction l with
  | nil => intro e he; simp at he
  | cons hd rest ih =>
    simp only [List.map_cons, List.nodup_cons] at hkeys
    by_cases hk : (hd.1 == t) = true
    · have herase : List.eraseP (fun e => (e : String × α).1 == t)
          (hd :: rest) = rest := List.eraseP_cons_of_pos hk
      rw [herase]
      intro e he heq
      have hmem : e.1 ∈ List.map Prod.fst rest := List.mem_map_of_mem _ he
      rw [heq, ← beq_iff_eq.mp hk] at hmem
      exact hkeys.1 hmem
    · have herase : List.eraseP (fun e => (e : String × α).1 == t)
          (hd :: rest) =
            hd :: List.eraseP (fun e => (e : String × α).1 == t) rest :=
        List.eraseP_cons_of_neg (by simp [hk])
      rw [herase]
      intro e he
      rcases List.mem_cons.mp he with rfl | he
      · exact beq_eq_false_iff_ne.mp (Bool.eq_false_iff.mpr hk)
      · exact ih hkeys.2 e he

/-- C9: with a fresh token and distinct keys — on a table holding a
compatible peer, `Enqueue` pairs the caller with that peer (whose user id
differs), deletes the peer, and never installs the fresh token, so a
following `Dequeue` with it fails with "queue token not found" and
`GetPosition` observes `-1`; on a table with no compatible peer, the
caller is installed under exactly the fresh token. -/
theorem enqueue_spec (w1 w2 : List (String × WaitingPlayer))
    (token1 token2 : String) (req : MatchmakingRequest)
    (other : String × WaitingPlayer)
    (hkeys1 : (w1.map Prod.fst).Nodup)
    (hfresh1 : ∀ e ∈ w1, e.1 ≠ token1)
    (hfind1 : w1.find? (fun e => e.2.userID != req.userID) = some other)
    (hfind2 : w2.find? (fun e => e.2.userID != req.userID) = none) :
    enqueue w1 token1 req =
      (w1.eraseP (fun e => e.1 == other.1),
        some ⟨⟨req.userID, req.displayName, req.isGuest, req.botOK, token1⟩,
          other.2⟩) ∧
    other.2.userID ≠ req.userID ∧
    other ∈ w1 ∧
    (∀ e ∈ w1.eraseP (fun e => e.1 == other.1), e.1 ≠ other.1) ∧
    dequeue (w1.eraseP (fun e => e.1 == other.1)) token1 =
      .error "queue token not found" ∧
    getPosition (w1.eraseP (fun e => e.1 == other.1)) token1 = -1 ∧
    enqueue w2 token2 req =
      (w2 ++ [(token2,
        ⟨req.userID, req.displayName, req.isGuest, req.botOK, token2⟩)],
        none) ∧
    (token2, (⟨req.userID, req.displayName, req.isGuest, req.botOK,
        token2⟩ : WaitingPlayer)) ∈
      w2 ++ [(token2,
        ⟨req.userID, req.displayName, req.isGuest, req.botOK, token2⟩)] := by
  have hsub : ∀ e ∈ w1.eraseP (fun e => e.1 == other.1), e ∈ w1 :=
    fun e he => (List.eraseP_sublist w1).mem he
  have hany : (w1.eraseP (fun e => e.1 == other.1)).any
      (fun e => e.1 == token1) = false := by
    rw [List.any_eq_false]
    intro e he
    simp only [beq_iff_eq]
    exact fun heq => hfresh1 e (hsub e he) heq
  refine ⟨?_, bne_iff_ne.mp (by simpa using List.find?_some hfind1),
    List.mem_of_find?_eq_some hfind1, eraseP_key other.1 w1 hkeys1,
    ?_, ?_, ?_, ?_⟩
  · unfold enqueue
    simp only [isCompatible, Bool.and_true]
    rw [hfind1]
  · unfold dequeue
    rw [if_neg (by simp [hany])]
  · unfold getPosition
    rw [List.findIdx?_eq_none_iff.mpr]
    intro e he
    simp only [beq_eq_false_iff_ne]
    exact fun heq => hfresh1 e (hsub e he) heq
  · unfold enqueue
    simp only [isCompatible, Bool.and_true]
    rw [hfind2]
  · exact List.mem_append_right _ (List.mem_singleton_self _)

/-- Witness for C9: a one-entry table pairs the caller; an empty table
installs the caller. -/
theorem enqueue_spec_witness :
    (([("t0", ⟨"u0", "d0", false, false, "t0"⟩)] :
        List (String × WaitingPlayer)).map Prod.fst).Nodup ∧
    (∀ e ∈ ([("t0", ⟨"u0", "d0", false, false, "t0"⟩)] :
        List (String × WaitingPlayer)), e.1 ≠ "t1") ∧
    enqueue [("t0", ⟨"u0", "d0", false, false, "t0"⟩)] "t1"
        ⟨"u1", "d1", false, false⟩ =
      (([("t0", ⟨"u0", "d0", false, false, "t0"⟩)] :
        List (String × WaitingPlayer)).eraseP (fun e => e.1 == "t0"),
        some ⟨⟨"u1", "d1", false, false, "t1"⟩,
          ⟨"u0", "d0", false, false, "t0"⟩⟩) ∧
    dequeue (([("t0", ⟨"u0", "d0", false, false, "t0"⟩)] :
        List (String × WaitingPlayer)).eraseP (fun e => e.1 == "t0")) "t1" =
      .error "queue token not found" ∧
    getPosition (([("t0", ⟨"u0", "d0", false, false, "t0"⟩)] :
        List (String × WaitingPlayer)).eraseP (fun e => e.1 == "t0")) "t1" =
      -1 ∧
    enqueue [] "t2" ⟨"u1", "d1", false, false⟩ =
      ([("t2", ⟨"u1", "d1", false, false, "t2"⟩)], none) :=
  have h := enqueue_spec [("t0", ⟨"u0", "d0", false, false, "t0"⟩)] []
    "t1" "t2" ⟨"u1", "d1", false, false⟩
    ("t0", ⟨"u0", "d0", false, false, "t0"⟩)
    (by decide) (by decide) (by decide) (by decide)
  ⟨by decide, by decide, h.1, h.2.2.2.2.1, h.2.2.2.2.2.1,
    by simpa using h.2.2.2.2.2.2.1⟩

/-- The capacity of a connection's buffered outbound channel
(`make(chan Message, 256)`, hub.go). -/
def sendQueueCap : ℕ := 256

/-- Go `ws.Connection` (hub.go): the closed flag and the pending outbound
queue (messages abstracted to strings). -/
structure Connection where
  closed : Bool
  sendQueue : List String
  deriving Repr, DecidableEq

/-- The failure modes of `Hub.SendToUser` / `Connection.Send` (hub.go):
`ErrConnectionNotFound`, `ErrConnectionClosed`, `ErrSendQueueFull`. -/
inductive SendError
  | connectionNotFound
  | connectionClosed
  | sendQueueFull
  deriving Repr, DecidableEq

/-- Go `Connection.Send` (hub.go:168-182): a closed connection is rejected
first; otherwise the select-with-default enqueue appends when the 256-slot
channel has room and fails with `send_queue_full` when it does not —
it never blocks (every case returns immediately). -/
def connSend (c : Connection) (msg : String) : Except SendError Connection :=
  if c.closed then .error .connectionClosed
  else if c.sendQueue.length < sendQueueCap then
    .ok { c with sendQueue := c.sendQueue ++ [msg] }
  else .error .sendQueueFull

/-- Go `Hub.SendToUser` (hub.go:128-138): look up the user's connection, then
delegate to `Connection.Send`. -/
def sendToUser (connections : List (String × Connection)) (userID : String)
    (msg : String) : Except SendError Connection :=
  match connections.find? (fun e => e.1 == userID) with
  | none => .error .connectionNotFound
  | some e => connSend e.2 msg

/-- C10: when the target user's connection is registered in the hub but
closed, `SendToUser` returns `connection_closed` — a third failure mode
distinct from `connection_not_found` and `send_queue_full`; and the
enqueue is non-blocking in all cases: with room it appends and returns,
and on a full 256-slot queue it returns `send_queue_full` immediately. -/
theorem sendToUser_closed_is_third_error
    (connections : List (String × Connection)) (userID msg : String)
    (e : String × Connection)
    (hfind : connections.find? (fun p => p.1 == userID) = some e)
    (hclosed : e.2.closed = true) :
    sendToUser connections userID msg = .error .connectionClosed ∧
    SendError.connectionClosed ≠ .connectionNotFound ∧
    SendError.connectionClosed ≠ .sendQueueFull ∧
    (∀ c : Connection, c.closed = false →
      c.sendQueue.length < sendQueueCap →
      connSend c msg = .ok { c with sendQueue := c.sendQueue ++ [msg] }) ∧
    (∀ c : Connection, c.closed = false →
      sendQueueCap ≤ c.sendQueue.length →
      connSend c msg = .error .sendQueueFull) := by
  refine ⟨?_, by decide, by decide, ?_, ?_⟩
  · unfold sendToUser connSend
    rw [hfind]
    dsimp only
    rw [if_pos hclosed]
  · intro c hc hlen
    unfold connSend
    rw [if_neg (by simp [hc]), if_pos hlen]
  · intro c hc hlen
    unfold connSend
    rw [if_neg (by simp [hc]), if_neg (not_lt.mpr hlen)]

/-- Witness for C10: a hub with one registered, closed connection. -/
theorem sendToUser_closed_is_third_error_witness :
    (([("u", ⟨true, []⟩)] : List (String × Connection)).find?
        (fun p => p.1 == "u") = some ("u", ⟨true, []⟩)) ∧
    (Connection.closed ⟨true, []⟩ = true) ∧
    sendToUser [("u", ⟨true, []⟩)] "u" "hello" =
      .error .connectionClosed :=
  ⟨by decide, rfl,
    (sendToUser_closed_is_third_error [("u", ⟨true, []⟩)] "u" "hello"
      ("u", ⟨true, []⟩) (by decide) rfl).1⟩

end Quiz
